import Mathlib

/-!
Verification of the powerpricecheck repository core: price normalization,
caching discipline and the cheapest-window recommendation engine.

The JavaScript sources are embedded shallowly:
- JS numbers are modelled as exact rationals (`ℚ`); `Math.round` is
  floor of x + 1/2 (its behaviour on all values arising here).
- Timestamps are naturals (milliseconds since the epoch, UTC).
- `Date.prototype.setMinutes(0,0,0)` (truncation of an instant to its
  hour) is `hourKey`: the timestamp minus its sub-hour remainder.
- Fallible JS code (thrown TypeError, returned error objects) is
  modelled with `Except` / explicit error constructors.
- Asynchronous fetches are modelled by passing the fetched data (or
  the fetch failure) as an explicit argument.
- Non-finite JS numbers (Infinity from the initial accumulator, NaN
  from an empty-slot average) are modelled with `Option ℚ`, `none`
  standing for the non-finite value; the comparison `NaN < x` is false
  in JS, matching the `none` branch of the scan step below.
-/

namespace PowerPriceCheck

/-- JS `Math.round`: round half toward positive infinity. -/
def jsRound (q : ℚ) : ℤ := ⌊q + 1 / 2⌋

/-- JS `Math.round(x * 100) / 100`: round to 2 decimal places. -/
def round2 (q : ℚ) : ℚ := (jsRound (q * 100) : ℚ) / 100

/-- Milliseconds per hour (`60 * 60 * 1000` in the sources). -/
def msPerHour : ℕ := 3600000

/-- `setMinutes(0, 0, 0)`: truncate an instant (ms) to the start of its
clock hour. -/
def hourKey (t : ℕ) : ℕ := msPerHour * (t / msPerHour)

/-- `date.getHours()` under UTC: hour of day 0..23 of an instant. -/
def hourOfDay (t : ℕ) : ℕ := t / msPerHour % 24

/-- Arithmetic mean of a list of rationals (`reduce(sum) / length`). -/
def mean (l : List ℚ) : ℚ := l.sum / (l.length : ℚ)

/-- Period tag attached to every price entry by the data layer. -/
inductive Period where
  | past
  | current
  | future
deriving DecidableEq, Repr

/-- A categorized price entry of `powerpricecheck.js` / `entsoe-client.js`:
`{timestamp, hour, price, period}` (the inert `unit` string field is
omitted). -/
structure PricePoint where
  timestamp : ℕ
  hour : ℕ
  price : ℚ
  period : Period
deriving DecidableEq, Repr

/-- A bare price entry `{timestamp, price}` as used by the node-red
function: both the raw fetched points and the hourly aggregates have
this shape (the inert `unit` string field is omitted). -/
structure PriceEntry where
  timestamp : ℕ
  price : ℚ
deriving DecidableEq, Repr

/-!
### The lowest-average-window scan

All three `recommendBestTime` variants share the same loop:

    let bestSlot = null, lowestAvgPrice = Infinity;
    for (let i = 0; i <= list.length - duration; i++) {
      const slot = list.slice(i, i + duration);
      const avgPrice = slot.reduce((s, p) => s + p.price, 0) / slot.length;
      if (avgPrice < lowestAvgPrice) { lowestAvgPrice = avgPrice; bestSlot = ...; }
    }

`bestOver f m` folds that loop: `f i` is the slot average at start
index `i` (`none` when the slot is empty, i.e. the JS average is NaN),
and the accumulator is `none` while `lowestAvgPrice` is still Infinity.
-/

/-- One iteration of the scan loop. `f i = none` models a NaN average
(the comparison with the running minimum is false); an accumulator of
`none` models `lowestAvgPrice = Infinity` (any finite average wins). -/
def bestStep (f : ℕ → Option ℚ) (acc : Option (ℕ × ℚ)) (i : ℕ) : Option (ℕ × ℚ) :=
  match f i, acc with
  | none, acc => acc
  | some a, none => some (i, a)
  | some a, some (j, b) => if a < b then some (i, a) else some (j, b)

/-- The whole scan loop over start indices `0, 1, ..., m - 1`. -/
def bestOver (f : ℕ → Option ℚ) (m : ℕ) : Option (ℕ × ℚ) :=
  (List.range m).foldl (bestStep f) none

theorem bestOver_succ (f : ℕ → Option ℚ) (m : ℕ) :
    bestOver f (m + 1) = bestStep f (bestOver f m) m := by
  unfold bestOver
  rw [List.range_succ, List.foldl_append]
  rfl

theorem bestOver_eq_none (f : ℕ → Option ℚ) :
    ∀ m, bestOver f m = none → ∀ j, j < m → f j = none := by
  intro m
  induction m with
  | zero => intro _ j hj; omega
  | succ m ih =>
    intro h j hj
    rw [bestOver_succ] at h
    rcases hacc : bestOver f m with _ | p
    · rw [hacc] at h
      rcases hfm : f m with _ | c
      · rcases Nat.lt_succ_iff_lt_or_eq.mp hj with hj2 | rfl
        · exact ih hacc j hj2
        · exact hfm
      · simp [bestStep, hfm] at h
    · exfalso
      rw [hacc] at h
      obtain ⟨j0, b0⟩ := p
      rcases hfm : f m with _ | c
      · simp [bestStep, hfm] at h
      · by_cases hc : c < b0 <;> simp [bestStep, hfm, hc] at h

/-- The scan returns the average-minimizing start index; on ties the
earliest index wins (the JS update condition is a strict `<`). -/
theorem bestOver_eq_some (f : ℕ → Option ℚ) :
    ∀ m i a, bestOver f m = some (i, a) →
      f i = some a ∧ i < m ∧
      (∀ j b, j < m → f j = some b → a ≤ b) ∧
      (∀ j b, j < i → f j = some b → a < b) := by
  intro m
  induction m with
  | zero => intro i a h; simp [bestOver] at h
  | succ m ih =>
    intro i a h
    rw [bestOver_succ] at h
    rcases hacc : bestOver f m with _ | p
    · rw [hacc] at h
      rcases hfm : f m with _ | c
      · simp [bestStep, hfm] at h
      · simp [bestStep, hfm] at h
        obtain ⟨hi, ha⟩ := h
        subst hi; subst ha
        have hnone := bestOver_eq_none f m hacc
        refine ⟨hfm, Nat.lt_succ_self m, ?_, ?_⟩
        · intro j b hj hfj
          rcases Nat.lt_succ_iff_lt_or_eq.mp hj with hj2 | rfl
          · rw [hnone j hj2] at hfj; cases hfj
          · rw [hfm] at hfj; cases hfj; exact le_refl _
        · intro j b hj hfj
          rw [hnone j (by omega)] at hfj; cases hfj
    · rw [hacc] at h
      obtain ⟨j0, b0⟩ := p
      obtain ⟨hfj0, hj0m, hmin, hstrict⟩ := ih j0 b0 hacc
      rcases hfm : f m with _ | c
      · simp [bestStep, hfm] at h
        obtain ⟨hi, ha⟩ := h
        subst hi; subst ha
        refine ⟨hfj0, by omega, ?_, hstrict⟩
        intro j b hj hfj
        rcases Nat.lt_succ_iff_lt_or_eq.mp hj with hj2 | rfl
        · exact hmin j b hj2 hfj
        · rw [hfm] at hfj; cases hfj
      · by_cases hc : c < b0
        · simp [bestStep, hfm, hc] at h
          obtain ⟨hi, ha⟩ := h
          subst hi; subst ha
          refine ⟨hfm, Nat.lt_succ_self m, ?_, ?_⟩
          · intro j b hj hfj
            rcases Nat.lt_succ_iff_lt_or_eq.mp hj with hj2 | rfl
            · exact le_of_lt (lt_of_lt_of_le hc (hmin j b hj2 hfj))
            · rw [hfm] at hfj; cases hfj; exact le_refl _
          · intro j b hj hfj
            exact lt_of_lt_of_le hc (hmin j b (by omega) hfj)
        · simp [bestStep, hfm, hc] at h
          obtain ⟨hi, ha⟩ := h
          subst hi; subst ha
          refine ⟨hfj0, by omega, ?_, hstrict⟩
          intro j b hj hfj
          rcases Nat.lt_succ_iff_lt_or_eq.mp hj with hj2 | rfl
          · exact hmin j b hj2 hfj
          · rw [hfm] at hfj; cases hfj; exact le_of_not_lt hc

/-!
### The resolution normalizer (node-red-function.js lines 239-258)

    const pricesByHour = new Map();
    prices.forEach(p => {
        const timestamp = new Date(p.timestamp);
        timestamp.setMinutes(0, 0, 0);
        const hourKey = timestamp.toISOString();
        ... pricesByHour.get(hourKey).push(p.price); });
    const hourlyPrices = Array.from(pricesByHour.entries())
        .map(([timestamp, pricesInHour]) => ({timestamp,
            price: Math.round((sum / pricesInHour.length) * 100) / 100, ...}))
        .sort((a, b) => new Date(a.timestamp) - new Date(b.timestamp));

The Map holds one group per distinct hour key (insertion order), each
mapped to one averaged entry, and the entries are sorted ascending by
timestamp.  Since each distinct key yields exactly one entry,
sorting the entries equals sorting the distinct keys first and then
building the entries, which is how it is written below.
-/

/-- The distinct hour keys of a point list, sorted ascending (the Map
keys after the final `.sort`). -/
def hourKeys (ps : List PriceEntry) : List ℕ :=
  List.insertionSort (fun a b => a ≤ b) ((ps.map (fun p => hourKey p.timestamp)).dedup)

/-- The prices pushed into the Map bucket of hour key `k`. -/
def hourGroup (ps : List PriceEntry) (k : ℕ) : List ℚ :=
  (ps.filter (fun p => hourKey p.timestamp == k)).map (fun p => p.price)

/-- The hourly aggregation: one entry per distinct hour, holding the
mean of that hour's prices rounded to 2 decimals, sorted ascending. -/
def aggregateToHourly (ps : List PriceEntry) : List PriceEntry :=
  (hourKeys ps).map (fun k => { timestamp := k, price := round2 (mean (hourGroup ps k)) })

theorem hourKeys_perm (ps : List PriceEntry) :
    List.Perm (hourKeys ps) ((ps.map (fun p => hourKey p.timestamp)).dedup) :=
  List.perm_insertionSort _ _

theorem hourKeys_nodup (ps : List PriceEntry) : (hourKeys ps).Nodup :=
  (hourKeys_perm ps).nodup_iff.mpr (List.nodup_dedup _)

theorem mem_hourKeys (ps : List PriceEntry) (k : ℕ) :
    k ∈ hourKeys ps ↔ k ∈ ps.map (fun p => hourKey p.timestamp) :=
  (hourKeys_perm ps).mem_iff.trans (List.mem_dedup)

theorem hourKeys_sorted (ps : List PriceEntry) :
    (hourKeys ps).Sorted (fun a b => a ≤ b) :=
  List.sorted_insertionSort _ _

theorem hourKeys_pairwise_lt (ps : List PriceEntry) :
    (hourKeys ps).Pairwise (fun a b => a < b) :=
  List.Sorted.lt_of_le (hourKeys_sorted ps) (hourKeys_nodup ps)

theorem aggregate_map_timestamp (ps : List PriceEntry) :
    (aggregateToHourly ps).map (fun e => e.timestamp) = hourKeys ps := by
  unfold aggregateToHourly
  rw [List.map_map]
  exact List.map_id _

theorem aggregate_pairwise_lt (ps : List PriceEntry) :
    (aggregateToHourly ps).Pairwise (fun a b => a.timestamp < b.timestamp) := by
  unfold aggregateToHourly
  rw [List.pairwise_map]
  exact hourKeys_pairwise_lt ps

theorem aggregate_mem (ps : List PriceEntry) (e : PriceEntry) (he : e ∈ aggregateToHourly ps) :
    e.timestamp ∈ hourKeys ps ∧ e.price = round2 (mean (hourGroup ps e.timestamp)) := by
  unfold aggregateToHourly at he
  obtain ⟨k, hk, hke⟩ := List.mem_map.mp he
  cases hke
  exact ⟨hk, rfl⟩

/-- `slice(i, i + d)` average: `none` is the NaN of an empty slot.
The duration is an integer because the JS duration can be negative
(`Array.prototype.slice` then yields an empty slot). -/
def windowAvg {α : Type} (priceOf : α → ℚ) (l : List α) (i : ℕ) (d : ℤ) : Option ℚ :=
  let slot := (l.drop i).take d.toNat
  if slot.length = 0 then none
  else some ((slot.map priceOf).sum / (slot.length : ℚ))

/-- The full scan: start indices `i` with `i <= l.length - d`. -/
def scanBest {α : Type} (priceOf : α → ℚ) (l : List α) (d : ℤ) : Option (ℕ × ℚ) :=
  bestOver (fun i => windowAvg priceOf l i d) ((l.length + 1 - d).toNat)

namespace PPC

/-!
### powerpricecheck.js

`recommendBestTime(durationHours, lookAheadHours)` filters the
categorized price data to the current and future entries, keeps the
first `lookAheadHours + 1` of them, and scans for the cheapest
contiguous window.  The winning slot's reported `endTime`/`endHour`
are taken from `slot[slot.length - 1]`, the start of the LAST included
hour.  The "current" price used for the savings figures is
`currentAndFuture[0].price`, the first entry of the filtered list,
whether or not that entry is the current hour.
-/

/-- `prices.filter(p => p.period === "current" || p.period === "future").slice(0, lookAheadHours + 1)`. -/
def candidates (prices : List PricePoint) (lookAheadHours : ℕ) : List PricePoint :=
  (prices.filter (fun p => p.period == Period.current || p.period == Period.future)).take
    (lookAheadHours + 1)

/-- The `bestSlot` object built in the scan loop (`prices` inner list
holds the `{timestamp, hour, price}` triples of the slot).  `endTime`
and `endHour` come from the last element of the slot, i.e. the start
of the last included hour. -/
structure BestSlot where
  startTime : ℕ
  startHour : ℕ
  endTime : ℕ
  endHour : ℕ
  averagePrice : ℚ
  prices : List (ℕ × ℕ × ℚ)
deriving DecidableEq, Repr

def mkBestSlot (l : List PricePoint) (i : ℕ) (d : ℤ) (avg : ℚ) : BestSlot :=
  let slot := (l.drop i).take d.toNat
  { startTime := ((slot.head?).map (fun p => p.timestamp)).getD 0
    startHour := ((slot.head?).map (fun p => p.hour)).getD 0
    endTime := ((slot.getLast?).map (fun p => p.timestamp)).getD 0
    endHour := ((slot.getLast?).map (fun p => p.hour)).getD 0
    averagePrice := round2 avg
    prices := slot.map (fun p => (p.timestamp, p.hour, p.price)) }

/-- The object returned on the non-error path.  `potentialSavings` and
`savingsPercentage` are `none` when the JS values are non-finite
(no slot found: `currentPrice - Infinity`; or a division by a zero
current price). -/
structure PPCResult where
  recommendation : Option BestSlot
  currentPrice : ℚ
  potentialSavings : Option ℚ
  savingsPercentage : Option ℚ
  durationHours : ℤ
deriving DecidableEq, Repr

def withSlotResult (cf : List PricePoint) (first : PricePoint) (i : ℕ) (d : ℤ)
    (lowestAvg : ℚ) : PPCResult :=
  { recommendation := some (mkBestSlot cf i d lowestAvg)
    currentPrice := first.price
    potentialSavings := some (round2 (first.price - lowestAvg))
    savingsPercentage :=
      if first.price = 0 then none
      else some ((jsRound (round2 (first.price - lowestAvg) / first.price * 10000) : ℚ) / 100)
    durationHours := d }

/-- `recommendBestTime` of src/powerpricecheck.js (the fetched,
categorized prices are passed explicitly in place of the awaited
`getPriceData()`). -/
def recommendBestTime (prices : List PricePoint) (durationHours : ℤ)
    (lookAheadHours : ℕ) : Except String PPCResult :=
  if ((candidates prices lookAheadHours).length : ℤ) < durationHours then
    Except.error "Not enough data for the requested duration"
  else
    match (candidates prices lookAheadHours).head? with
    | none => Except.error "TypeError: cannot read price of undefined"
    | some first =>
      match scanBest (fun p => p.price) (candidates prices lookAheadHours) durationHours with
      | none =>
        Except.ok { recommendation := none, currentPrice := first.price,
                    potentialSavings := none, savingsPercentage := none,
                    durationHours := durationHours }
      | some (i, lowestAvg) =>
        Except.ok (withSlotResult (candidates prices lookAheadHours) first i durationHours lowestAvg)

/-- `getCurrentPrice()` return value (the inert `unit` field omitted). -/
structure CurrentPriceInfo where
  price : ℚ
  timestamp : ℕ
  hour : ℕ
deriving DecidableEq, Repr

/-- The error space of the JS data accessors: a thrown `TypeError`
(reading a property of `undefined`) or the structured NoCurrentData
failure the design documents call for.  The source only ever produces
the former. -/
inductive JsError where
  | typeError
  | noCurrentData
deriving DecidableEq, Repr

/-- `getCurrentPrice` of powerpricecheck.js:
`prices.find(p => p.period === "current")` followed by unguarded
property accesses on the result — when `find` comes back `undefined`
the property access throws a TypeError. -/
def getCurrentPrice (prices : List PricePoint) : Except JsError CurrentPriceInfo :=
  match prices.find? (fun p => p.period == Period.current) with
  | none => Except.error JsError.typeError
  | some current =>
    Except.ok { price := current.price, timestamp := current.timestamp, hour := current.hour }

/-- One hour-of-day pricing band of `generatePriceData`. -/
structure Band where
  basePrice : ℚ
  variance : ℚ
  minPrice : ℚ
  maxPrice : ℚ
deriving DecidableEq, Repr

/-- The hour-of-day band table of `generatePriceData` (the if/else
chain on `date.getHours()`). -/
def bands (hour : ℕ) : Band :=
  if hour ≤ 6 then ⟨7, 1, 6, 8⟩
  else if hour ≤ 8 then ⟨8.5, 0.5, 8, 9⟩
  else if hour ≤ 16 then ⟨9, 1, 8.5, 10⟩
  else if hour ≤ 21 then ⟨11, 1, 10, 12⟩
  else ⟨8, 1, 7, 9⟩

/-- One entry of the synthetic series: hour offset `k - 24` from `now`
(`k = 0, ..., 48`), price `base + (Math.random() - 0.5) * variance`
clamped into the band and rounded to 2 decimals.  `rand k` supplies
the `Math.random()` draw of iteration `k`. -/
def genEntry (now : ℕ) (rand : ℕ → ℚ) (k : ℕ) : PricePoint :=
  let t := now - 24 * msPerHour + k * msPerHour
  let b := bands (hourOfDay t)
  { timestamp := t
    hour := hourOfDay t
    price := round2 (max b.minPrice (min b.maxPrice (b.basePrice + (rand k - 1 / 2) * b.variance)))
    period := if k < 24 then Period.past else if k = 24 then Period.current else Period.future }

/-- `generatePriceData`: the synthetic fallback series, hour offsets
-24 through +24 around `now`. -/
def generatePriceData (now : ℕ) (rand : ℕ → ℚ) : List PricePoint :=
  (List.range 49).map (genEntry now rand)

/-- `getPriceData` of powerpricecheck.js: with no API token the
synthetic series is returned; with a token, a failed fetch falls
back to the synthetic series; a successful fetch is passed through.
The awaited `entsoeClient.getPriceData(token)` outcome is the
explicit `fetchResult` argument. -/
def getPriceData (token : Option String) (fetchResult : Except String (List PricePoint))
    (now : ℕ) (rand : ℕ → ℚ) : List PricePoint :=
  match token with
  | none => generatePriceData now rand
  | some _ =>
    match fetchResult with
    | Except.ok prices => prices
    | Except.error _ => generatePriceData now rand

end PPC

namespace PPCv2

/-!
### The fixed powerpricecheck.js variant

A second revision of `recommendBestTime` in the repository differs
from src/powerpricecheck.js in the winning slot's reported end:
`endTime` is `startTime + durationHours * MS_PER_HOUR` (when the
appliance finishes), not the last slot entry's start.  It also slices
`lookAheadHours` instead of `lookAheadHours + 1` candidates.
-/

def candidates (prices : List PricePoint) (lookAheadHours : ℕ) : List PricePoint :=
  (prices.filter (fun p => p.period == Period.current || p.period == Period.future)).take
    lookAheadHours

def mkBestSlot (l : List PricePoint) (i : ℕ) (d : ℤ) (avg : ℚ) : PPC.BestSlot :=
  let slot := (l.drop i).take d.toNat
  let startTime := ((slot.head?).map (fun p => p.timestamp)).getD 0
  { startTime := startTime
    startHour := ((slot.head?).map (fun p => p.hour)).getD 0
    endTime := startTime + d.toNat * msPerHour
    endHour := hourOfDay (startTime + d.toNat * msPerHour)
    averagePrice := round2 avg
    prices := slot.map (fun p => (p.timestamp, p.hour, p.price)) }

def recommendBestTime (prices : List PricePoint) (durationHours : ℤ)
    (lookAheadHours : ℕ) : Except String PPC.PPCResult :=
  if ((candidates prices lookAheadHours).length : ℤ) < durationHours then
    Except.error "Not enough data for the requested duration"
  else
    match (candidates prices lookAheadHours).head? with
    | none => Except.error "TypeError: cannot read price of undefined"
    | some first =>
      match scanBest (fun p => p.price) (candidates prices lookAheadHours) durationHours with
      | none =>
        Except.ok { recommendation := none, currentPrice := first.price,
                    potentialSavings := none, savingsPercentage := none,
                    durationHours := durationHours }
      | some (i, lowestAvg) =>
        Except.ok { recommendation := some (mkBestSlot (candidates prices lookAheadHours) i durationHours lowestAvg)
                    currentPrice := first.price
                    potentialSavings := some (round2 (first.price - lowestAvg))
                    savingsPercentage :=
                      if first.price = 0 then none
                      else some ((jsRound (round2 (first.price - lowestAvg) / first.price * 10000) : ℚ) / 100)
                    durationHours := durationHours }

end PPCv2

namespace NodeRed

/-!
### node-red-function.js

The function node validates `lookAheadHours`, fetches (through the
global-context cache), aggregates the raw points to hourly averages,
scans for the cheapest window of `duration` hours, reports the window
end as start + duration, looks the current price up by the truncated
current hour and fails when it is absent, and computes the savings
figures.  Time-of-day string formatting (Intl.DateTimeFormat) is
presentation only; the payload below carries the underlying instants.
-/

/-- `msg.payload.lookAheadHours || 6`: an absent value — and also a
value of 0, which is falsy in JS — defaults to 6. -/
def nrLookAhead (raw : Option ℤ) : ℤ :=
  match raw with
  | none => 6
  | some v => if v = 0 then 6 else v

/-- `parseInt(msg.payload.duration) || 1`: absent or non-numeric input
(NaN) and also a value of 0 default to 1; other values pass through. -/
def nrDuration (raw : Option ℤ) : ℤ :=
  match raw with
  | none => 1
  | some v => if v = 0 then 1 else v

/-- The success payload (`start`/`end` are formatted from these
instants). -/
structure NRPayload where
  averagePrice : ℚ
  startMs : ℕ
  endMs : ℕ
  currentPrice : ℚ
  currentTimestamp : ℕ
  savings : ℚ
  savingsPercentage : ℚ
deriving DecidableEq, Repr

inductive NRResult where
  | errorMsg (message : String)
  | success (payload : NRPayload)
deriving DecidableEq, Repr

def NRResult.isSuccess : NRResult → Bool
  | NRResult.errorMsg _ => false
  | NRResult.success _ => true

/-- Start instant of the winning slot (`bestSlot[0].timestamp`). -/
def slotStartMs (l : List PriceEntry) (i : ℕ) (dn : ℕ) : ℕ :=
  ((((l.drop i).take dn).head?).map (fun p => p.timestamp)).getD 0

/-- The `recommendBestTime` action of the node-red function node.
`prices` is the raw series the (cache-guarded) fetch produced; the
validation of `lookAheadHours` happens before that fetch, which the
theorems express by the result being independent of `prices` on the
invalid-parameter path. -/
def recommendAction (rawLookAhead rawDuration : Option ℤ) (now : ℕ)
    (prices : List PriceEntry) : NRResult :=
  if nrLookAhead rawLookAhead < 1 ∨ 168 < nrLookAhead rawLookAhead then
    NRResult.errorMsg "Invalid lookAheadHours parameter. Must be a number between 1 and 168 (1 week)."
  else
    match scanBest (fun p => p.price) (aggregateToHourly prices) (nrDuration rawDuration) with
    | none => NRResult.errorMsg "Not enough data available to calculate the best time."
    | some (i, lowestAvg) =>
      match (aggregateToHourly prices).find? (fun p => p.timestamp == hourKey now) with
      | none =>
        NRResult.errorMsg "Could not determine current price from available data. The current hour may not be included in the fetched price data."
      | some cur =>
        NRResult.success
          { averagePrice := round2 lowestAvg
            startMs := slotStartMs (aggregateToHourly prices) i (nrDuration rawDuration).toNat
            endMs := slotStartMs (aggregateToHourly prices) i (nrDuration rawDuration).toNat
                       + (nrDuration rawDuration).toNat * msPerHour
            currentPrice := cur.price
            currentTimestamp := cur.timestamp
            savings := round2 (cur.price - lowestAvg)
            savingsPercentage :=
              if 0 < cur.price then (jsRound ((cur.price - lowestAvg) / cur.price * 10000) : ℚ) / 100
              else 0 }

/-- The global-context cache entry of `getCachedPriceData` (the debug
bookkeeping fields `fetchedAt`, `priceCount`, `cacheLifespanMs`,
`expiresAt` are inert and omitted). -/
structure NRCache where
  timestamp : ℕ
  data : List PriceEntry
deriving DecidableEq, Repr

/-- `CACHE_LIFESPAN = 60 * 60 * 1000`. -/
def CACHE_LIFESPAN : ℕ := 3600000

/-- `getCachedPriceData`: serve the cached series while
`now - cachedData.timestamp < CACHE_LIFESPAN`, otherwise fetch,
store and return the fresh series. -/
def getCachedPriceData (cache : Option NRCache) (now : ℕ)
    (fetched : List PriceEntry) : List PriceEntry × Option NRCache :=
  match cache with
  | some cached =>
    if now - cached.timestamp < CACHE_LIFESPAN then (cached.data, some cached)
    else (fetched, some { timestamp := now, data := fetched })
  | none => (fetched, some { timestamp := now, data := fetched })

end NodeRed

namespace EntsoeClient

/-!
### entsoe-client.js

The module-level cache is declared as

    let priceCache = { data: null, timestamp: null, expiryMs: 60*60*1000 };

`getPriceData` serves `priceCache.data` while
`(now - priceCache.timestamp) < priceCache.expiryMs`, otherwise it
fetches, categorizes each point as past/current/future against the
truncated current hour, and replaces the cache with
`{ data: categorizedPrices, timestamp: now }` — WITHOUT `expiryMs`.
A numeric comparison against the now-`undefined` `expiryMs` is false
in JS, which the `none` branch of `cacheIsValid` models.
-/

/-- A parsed price point `{timestamp, hour, price}` (the inert
`priceEurMwh` duplicate of the price is omitted). -/
structure EcPoint where
  timestamp : ℕ
  hour : ℕ
  price : ℚ
deriving DecidableEq, Repr

/-- The mutable `priceCache` object; every field can be absent
(`null`/`undefined`). -/
structure PriceCacheState where
  data : Option (List PricePoint)
  timestamp : Option ℕ
  expiryMs : Option ℕ
deriving DecidableEq, Repr

/-- The declared initial cache value. -/
def initialPriceCache : PriceCacheState :=
  { data := none, timestamp := none, expiryMs := some 3600000 }

/-- `priceCache.data && priceCache.timestamp && (now - priceCache.timestamp) < priceCache.expiryMs`:
with `expiryMs` absent the comparison is against `undefined`, hence
false. -/
def cacheIsValid (c : PriceCacheState) (now : ℕ) : Bool :=
  match c.data, c.timestamp, c.expiryMs with
  | some _, some t, some e => decide (now - t < e)
  | _, _, _ => false

/-- The past/current/future categorization against the truncated
current hour. -/
def categorize (now : ℕ) (ps : List EcPoint) : List PricePoint :=
  ps.map (fun p =>
    { timestamp := p.timestamp
      hour := p.hour
      price := p.price
      period :=
        if hourKey p.timestamp < hourKey now then Period.past
        else if hourKey p.timestamp = hourKey now then Period.current
        else Period.future })

/-- `getPriceData` of entsoe-client.js: cached data within TTL,
otherwise fetch (the awaited `fetchDayAheadPrices` result is the
explicit `fetched` argument), categorize, and replace the cache —
dropping `expiryMs`, exactly as the source does. -/
def getPriceData (c : PriceCacheState) (now : ℕ) (fetched : List EcPoint) :
    List PricePoint × PriceCacheState :=
  if cacheIsValid c now then (c.data.getD [], c)
  else
    (categorize now fetched,
     { data := some (categorize now fetched), timestamp := some now, expiryMs := none })

end EntsoeClient

/-!
### Helper lemmas
-/

theorem le_round2_of_le (n : ℤ) (x : ℚ) (h : (n : ℚ) / 100 ≤ x) :
    (n : ℚ) / 100 ≤ round2 x := by
  unfold round2 jsRound
  rw [div_le_iff₀ (by norm_num : (0:ℚ) < 100)] at h
  have h2 : n ≤ ⌊x * 100 + 1 / 2⌋ := Int.le_floor.mpr (by linarith)
  exact (div_le_div_iff_of_pos_right (by norm_num : (0:ℚ) < 100)).mpr (by exact_mod_cast h2)

theorem round2_le_of_le (n : ℤ) (x : ℚ) (h : x ≤ (n : ℚ) / 100) :
    round2 x ≤ (n : ℚ) / 100 := by
  unfold round2 jsRound
  rw [le_div_iff₀ (by norm_num : (0:ℚ) < 100)] at h
  have h1 : (x * 100 + 1 / 2 : ℚ) < ((n + 1 : ℤ) : ℚ) := by push_cast; linarith
  have h2 : ⌊x * 100 + 1 / 2⌋ ≤ n := Int.lt_add_one_iff.mp (Int.floor_lt.mpr h1)
  exact (div_le_div_iff_of_pos_right (by norm_num : (0:ℚ) < 100)).mpr (by exact_mod_cast h2)

theorem windowAvg_isSome {α : Type} (priceOf : α → ℚ) (l : List α) (i : ℕ) (d : ℤ)
    (hd : 1 ≤ d) (hin : (i : ℤ) + d ≤ (l.length : ℤ)) :
    ∃ a, windowAvg priceOf l i d = some a := by
  unfold windowAvg
  have hlen : ((l.drop i).take d.toNat).length = d.toNat := by
    rw [List.length_take, List.length_drop]
    omega
  rw [if_neg (by omega)]
  exact ⟨_, rfl⟩

/-!
### Claim C5 — hourly aggregation

Points are generated from a declared period (`timestamp =
periodStart + (position - 1) * resolutionMinutes`, positions
1-indexed, so index `i` contributes `i * resolutionMinutes` ms);
within one clock hour they produce exactly one aggregate entry whose
price is the rounded mean, and the output is sorted ascending.
-/

/-- The per-period point loop of the XML parsing step
(`periodStart + position * resolutionMinutes * 60 * 1000` with
0-based positions; `i` is the running position counter). -/
def periodPoints (periodStart resolutionMinutes : ℕ) : ℕ → List ℚ → List PriceEntry
  | _, [] => []
  | i, amount :: rest =>
    { timestamp := periodStart + i * (resolutionMinutes * 60000), price := amount }
      :: periodPoints periodStart resolutionMinutes (i + 1) rest

def pointsFromPeriod (periodStart resolutionMinutes : ℕ) (priceAmounts : List ℚ) :
    List PriceEntry :=
  periodPoints periodStart resolutionMinutes 0 priceAmounts

/-- What C5 asserts of the aggregation at an occupied hour `h`:
exactly one output entry for `h`, carrying the rounded mean of that
hour's prices, in an output sorted strictly ascending. -/
def aggSpec (pts : List PriceEntry) (h : ℕ) : Prop :=
  (aggregateToHourly pts).countP (fun e => e.timestamp == h) = 1 ∧
  (∀ e ∈ aggregateToHourly pts, e.timestamp = h →
     e.price = round2 (mean (hourGroup pts h))) ∧
  (aggregateToHourly pts).Pairwise (fun a b => a.timestamp < b.timestamp)

theorem aggSpec_of_mem (pts : List PriceEntry) (h : ℕ)
    (hh : h ∈ pts.map (fun p => hourKey p.timestamp)) : aggSpec pts h := by
  refine ⟨?_, ?_, aggregate_pairwise_lt pts⟩
  · have hcnt : (aggregateToHourly pts).countP (fun e => e.timestamp == h)
        = ((aggregateToHourly pts).map (fun e => e.timestamp)).count h := by
      rw [List.count, List.countP_map]
      rfl
    rw [hcnt, aggregate_map_timestamp]
    exact List.count_eq_one_of_mem (hourKeys_nodup pts) ((mem_hourKeys pts h).mpr hh)
  · intro e he het
    obtain ⟨_, hp⟩ := aggregate_mem pts e he
    rw [het] at hp
    exact hp

/-- C5: for every input series with a valid resolution (15, 30 or 60
minutes), each occupied clock hour yields exactly one hourly entry,
priced at the rounded arithmetic mean of that hour's points, in an
ascending output. -/
theorem c5_hourly_aggregation_correct (periodStart res : ℕ) (amounts : List ℚ) (h : ℕ)
    (hres : res = 15 ∨ res = 30 ∨ res = 60)
    (hh : h ∈ (pointsFromPeriod periodStart res amounts).map (fun p => hourKey p.timestamp)) :
    aggSpec (pointsFromPeriod periodStart res amounts) h :=
  aggSpec_of_mem _ h hh

/-- The 15-minute example of the spec: prices 8.43 / 8.28 / 7.94 /
7.71 in the first hour average to 8.09. -/
def w5amounts : List ℚ := [8.43, 8.28, 7.94, 7.71, 8.09, 7.8, 7.76, 7.7]

theorem c5_hourly_aggregation_correct_witness :
    ((15 = 15 ∨ 15 = 30 ∨ 15 = 60) ∧
      0 ∈ (pointsFromPeriod 0 15 w5amounts).map (fun p => hourKey p.timestamp)) ∧
    aggSpec (pointsFromPeriod 0 15 w5amounts) 0 ∧
    aggregateToHourly (pointsFromPeriod 0 15 w5amounts) =
      [{ timestamp := 0, price := 8.09 }, { timestamp := 3600000, price := 7.84 }] :=
  ⟨⟨Or.inl rfl, by decide⟩,
   c5_hourly_aggregation_correct 0 15 w5amounts 0 (Or.inl rfl) (by decide),
   by
    norm_num [aggregateToHourly, hourKeys, hourGroup, w5amounts, pointsFromPeriod,
      periodPoints, hourKey, msPerHour, mean, round2, jsRound,
      List.insertionSort, List.orderedInsert]⟩

/-!
### Claim C9 — the hourly series invariant

The normalizer output (which is exactly the series the node-red
recommendation scan consumes) has strictly increasing hour starts
with no duplicates, each aligned to a clock hour boundary.
-/

/-- C9: every aggregated hourly series has strictly increasing,
duplicate-free, hour-aligned timestamps. -/
theorem c9_hourly_series_invariant (ps : List PriceEntry) :
    (aggregateToHourly ps).Pairwise (fun a b => a.timestamp < b.timestamp) ∧
    ∀ e ∈ aggregateToHourly ps, msPerHour ∣ e.timestamp := by
  refine ⟨aggregate_pairwise_lt ps, ?_⟩
  intro e he
  obtain ⟨hk, _⟩ := aggregate_mem ps e he
  rw [mem_hourKeys] at hk
  obtain ⟨p, _, hp⟩ := List.mem_map.mp hk
  rw [← hp]
  exact Dvd.intro _ rfl

def w9prices : List PriceEntry := [⟨7200500, 5⟩, ⟨1000, 9⟩, ⟨3600500, 6⟩]

theorem c9_hourly_series_invariant_witness :
    (aggregateToHourly w9prices).Pairwise (fun a b => a.timestamp < b.timestamp) ∧
    ∀ e ∈ aggregateToHourly w9prices, msPerHour ∣ e.timestamp :=
  c9_hourly_series_invariant w9prices

/-!
### Claim C1 — the reported window end

src/powerpricecheck.js reports `endTime = slot[slot.length - 1].timestamp`,
the start of the LAST included hour; the repository's own regression
test and the other two recommendBestTime variants require
`windowEnd = windowStart + durationHours` hours.
-/

/-- The winning window boundaries a result reports. -/
def recWindow (r : Except String PPC.PPCResult) : Option (ℕ × ℕ) :=
  match r with
  | Except.ok res => res.recommendation.map (fun s => (s.startTime, s.endTime))
  | Except.error _ => none

/-- The part_005 test scenario reduced to three hours: hours 1 and 2
are the cheap ones, duration 2: the window must start at hour 1. -/
def c1prices : List PricePoint :=
  [{ timestamp := 0, hour := 0, price := 12, period := Period.future },
   { timestamp := 3600000, hour := 1, price := 7, period := Period.future },
   { timestamp := 7200000, hour := 2, price := 7.5, period := Period.future }]

/-- C1 fails on src/powerpricecheck.js: the 2-hour winning window
starting at 3600000 ms is reported ending at 7200000 ms (the last
included hour's start, start + 1 hour), not start + 2 hours. -/
theorem c1_reported_window_end_eval :
    recWindow (PPC.recommendBestTime c1prices 2 24) = some (3600000, 7200000) ∧
    (7200000 : ℕ) ≠ 3600000 + 2 * msPerHour := by
  constructor
  · simp only [recWindow, PPC.recommendBestTime, PPC.candidates, PPC.withSlotResult,
      PPC.mkBestSlot, scanBest, bestOver, windowAvg, bestStep, c1prices]
    simp [List.range_succ, bestStep]
    norm_num
  · norm_num [msPerHour]

/-- The fixed variant (part_002 of the repository) reports
start + 2 hours on the same input. -/
theorem ppcv2_window_end_eval :
    recWindow (PPCv2.recommendBestTime c1prices 2 24) = some (3600000, 10800000) ∧
    (10800000 : ℕ) = 3600000 + 2 * msPerHour := by
  constructor
  · simp only [recWindow, PPCv2.recommendBestTime, PPCv2.candidates, PPCv2.mkBestSlot,
      scanBest, bestOver, windowAvg, bestStep, c1prices]
    simp [List.range_succ, bestStep, msPerHour]
    norm_num
  · norm_num [msPerHour]

/-!
### Claim C2 — optimality of the selected window
-/

/-- What C2 asserts: the scan selects a window (reported through
`recommendBestTime`) whose average is at most the average of every
full `d`-hour window among the candidates, and every strictly earlier
full window has a strictly larger average (ties keep the earliest). -/
def bestWindowSpec (prices : List PricePoint) (d : ℤ) (la : ℕ) : Prop :=
  ∃ i a first,
    (PPC.candidates prices la).head? = some first ∧
    PPC.recommendBestTime prices d la =
      Except.ok (PPC.withSlotResult (PPC.candidates prices la) first i d a) ∧
    windowAvg (fun p => p.price) (PPC.candidates prices la) i d = some a ∧
    (∀ (j : ℕ) (b : ℚ), (j : ℤ) + d ≤ ((PPC.candidates prices la).length : ℤ) →
       windowAvg (fun p => p.price) (PPC.candidates prices la) j d = some b → a ≤ b) ∧
    (∀ (j : ℕ) (b : ℚ), j < i →
       windowAvg (fun p => p.price) (PPC.candidates prices la) j d = some b → a < b)

/-- C2: with at least `d` candidate entries, the selected window's
average is minimal over all full windows and earliest among minima. -/
theorem c2_selected_window_is_optimal (prices : List PricePoint) (d : ℤ) (la : ℕ)
    (hd : 1 ≤ d) (hn : d ≤ ((PPC.candidates prices la).length : ℤ)) :
    bestWindowSpec prices d la := by
  obtain ⟨first, rest, hcons⟩ : ∃ f r, PPC.candidates prices la = f :: r := by
    rcases h : PPC.candidates prices la with _ | ⟨f, r⟩
    · rw [h] at hn; simp at hn; omega
    · exact ⟨f, r, rfl⟩
  have hhead : (PPC.candidates prices la).head? = some first := by rw [hcons]; rfl
  have hm : 0 < (((PPC.candidates prices la).length : ℤ) + 1 - d).toNat := by omega
  obtain ⟨a0, ha0⟩ :=
    windowAvg_isSome (fun p => p.price) (PPC.candidates prices la) 0 d hd (by omega)
  rcases hbo : bestOver
      (fun i => windowAvg (fun p => p.price) (PPC.candidates prices la) i d)
      (((PPC.candidates prices la).length + 1 - d).toNat) with _ | ⟨i, a⟩
  · exfalso
    have hnone := bestOver_eq_none _ _ hbo 0 (by omega)
    rw [ha0] at hnone; cases hnone
  · obtain ⟨hfi, him, hmin, hstrict⟩ := bestOver_eq_some _ _ _ _ hbo
    have hscan : scanBest (fun p => p.price) (PPC.candidates prices la) d = some (i, a) := hbo
    refine ⟨i, a, first, hhead, ?_, hfi, ?_, ?_⟩
    · unfold PPC.recommendBestTime
      rw [if_neg (not_lt.mpr hn), hhead, hscan]
    · intro j b hj hb
      exact hmin j b (by omega) hb
    · intro j b hj hb
      exact hstrict j b hj hb

def w2prices : List PricePoint :=
  [{ timestamp := 0, hour := 0, price := 12, period := Period.current },
   { timestamp := 3600000, hour := 1, price := 7, period := Period.future },
   { timestamp := 7200000, hour := 2, price := 9, period := Period.future }]

theorem c2_selected_window_is_optimal_witness :
    ((1 : ℤ) ≤ 1 ∧ (1 : ℤ) ≤ ((PPC.candidates w2prices 6).length : ℤ)) ∧
    bestWindowSpec w2prices 1 6 :=
  ⟨⟨le_refl 1, by norm_num [PPC.candidates, w2prices]⟩,
   c2_selected_window_is_optimal w2prices 1 6 (le_refl 1)
     (by norm_num [PPC.candidates, w2prices])⟩

/-!
### Claim C3 — current price resolution

The node-red action looks the current price up by the truncated
current hour and fails when it is absent.  src/powerpricecheck.js
instead uses `currentAndFuture[0].price` — the first current-or-future
entry — so with no current-hour entry it silently substitutes the
first future price instead of failing.
-/

def resultCurrentPrice (r : Except String PPC.PPCResult) : Option ℚ :=
  match r with
  | Except.ok res => some res.currentPrice
  | Except.error _ => none

/-- A series with no current-period entry at all. -/
def c3prices : List PricePoint :=
  [{ timestamp := 3600000, hour := 1, price := 9, period := Period.future },
   { timestamp := 7200000, hour := 2, price := 11, period := Period.future }]

/-- C3 fails on src/powerpricecheck.js: with no current-hour entry the
call still succeeds, and the reported current price is the first
future entry's price (9), a substituted value. -/
theorem c3_ppc_substitutes_current_price :
    c3prices.all (fun p => p.period != Period.current) = true ∧
    resultCurrentPrice (PPC.recommendBestTime c3prices 1 6) = some 9 := by
  constructor
  · decide
  · simp only [resultCurrentPrice, PPC.recommendBestTime, PPC.candidates,
      PPC.withSlotResult, PPC.mkBestSlot, scanBest, bestOver, windowAvg, bestStep, c3prices]
    simp [List.range_succ, bestStep]
    norm_num

/-- C3 as amended: in the node-red action, a success payload always
carries the price of the hourly entry matching the truncated current
hour, and with no such entry no success payload is ever produced. -/
theorem c3_nodered_current_price_resolution (rawLA rawD : Option ℤ) (now : ℕ)
    (prices : List PriceEntry) :
    ((∀ e ∈ aggregateToHourly prices, e.timestamp ≠ hourKey now) →
       ∀ p, NodeRed.recommendAction rawLA rawD now prices ≠ NodeRed.NRResult.success p) ∧
    (∀ p, NodeRed.recommendAction rawLA rawD now prices = NodeRed.NRResult.success p →
       ∃ e ∈ aggregateToHourly prices, e.timestamp = hourKey now ∧
         p.currentPrice = e.price ∧ p.currentTimestamp = e.timestamp) := by
  constructor
  · intro hno p hsucc
    unfold NodeRed.recommendAction at hsucc
    by_cases hval : NodeRed.nrLookAhead rawLA < 1 ∨ 168 < NodeRed.nrLookAhead rawLA
    · rw [if_pos hval] at hsucc
      exact NodeRed.NRResult.noConfusion hsucc
    · rw [if_neg hval] at hsucc
      rcases hscan : scanBest (fun p => p.price) (aggregateToHourly prices)
          (NodeRed.nrDuration rawD) with _ | ⟨i, avg⟩
      · rw [hscan] at hsucc
        exact NodeRed.NRResult.noConfusion hsucc
      · rw [hscan] at hsucc
        rcases hfind : (aggregateToHourly prices).find? (fun p => p.timestamp == hourKey now)
            with _ | cur
        · rw [hfind] at hsucc
          exact NodeRed.NRResult.noConfusion hsucc
        · have hmem := List.mem_of_find?_eq_some hfind
          have hpred := List.find?_some hfind
          simp only [beq_iff_eq] at hpred
          exact hno cur hmem hpred
  · intro p hsucc
    unfold NodeRed.recommendAction at hsucc
    by_cases hval : NodeRed.nrLookAhead rawLA < 1 ∨ 168 < NodeRed.nrLookAhead rawLA
    · rw [if_pos hval] at hsucc
      exact absurd hsucc (by simp)
    · rw [if_neg hval] at hsucc
      rcases hscan : scanBest (fun p => p.price) (aggregateToHourly prices)
          (NodeRed.nrDuration rawD) with _ | ⟨i, avg⟩
      · rw [hscan] at hsucc
        exact absurd hsucc (by simp)
      · rw [hscan] at hsucc
        rcases hfind : (aggregateToHourly prices).find? (fun p => p.timestamp == hourKey now)
            with _ | cur
        · rw [hfind] at hsucc
          exact absurd hsucc (by simp)
        · rw [hfind] at hsucc
          have hmem := List.mem_of_find?_eq_some hfind
          have hpred := List.find?_some hfind
          simp only [beq_iff_eq] at hpred
          cases hsucc
          exact ⟨cur, hmem, hpred, rfl, rfl⟩

def w3prices : List PriceEntry := [⟨0, 3⟩, ⟨3600000, 1⟩]

def w3payload : NodeRed.NRPayload :=
  { averagePrice := 1, startMs := 3600000, endMs := 7200000, currentPrice := 3,
    currentTimestamp := 0, savings := 2, savingsPercentage := 6667 / 100 }

theorem c3_nodered_current_price_resolution_witness :
    NodeRed.recommendAction (some 6) (some 1) 0 w3prices = NodeRed.NRResult.success w3payload ∧
    ∃ e ∈ aggregateToHourly w3prices, e.timestamp = hourKey 0 ∧
      w3payload.currentPrice = e.price ∧ w3payload.currentTimestamp = e.timestamp := by
  have hrun : NodeRed.recommendAction (some 6) (some 1) 0 w3prices
      = NodeRed.NRResult.success w3payload := by
    simp only [NodeRed.recommendAction, NodeRed.nrLookAhead, NodeRed.nrDuration,
      NodeRed.slotStartMs, w3prices, w3payload, aggregateToHourly, hourKeys, hourGroup,
      hourKey, msPerHour, mean, scanBest, bestOver, windowAvg, bestStep,
      List.insertionSort, List.orderedInsert]
    simp [List.range_succ, bestStep]
    norm_num [round2, jsRound]
  exact ⟨hrun,
    (c3_nodered_current_price_resolution (some 6) (some 1) 0 w3prices).2 w3payload hrun⟩

/-!
### Claim C4 — cache get-after-put within TTL

entsoe-client.js replaces the cache with
`{ data: categorizedPrices, timestamp: now }`, dropping `expiryMs`;
the validity check compares the cache age against the now-absent
`expiryMs` and never succeeds again, so a get right after a put
refetches instead of returning the stored series.
-/

def c4seriesA : List EntsoeClient.EcPoint := [{ timestamp := 0, hour := 0, price := 5 }]

def c4seriesB : List EntsoeClient.EcPoint := [{ timestamp := 0, hour := 0, price := 9 }]

/-- C4 fails on entsoe-client.js: after the put at time 0 (storing
series A), a get at time 1000 ms — well within the 3,600,000 ms TTL —
finds the cache invalid and returns the fresh fetch (series B)
instead of the stored series. -/
theorem c4_entsoe_cache_never_hits_after_put :
    ((EntsoeClient.getPriceData EntsoeClient.initialPriceCache 0 c4seriesA).2).data
        = some (EntsoeClient.categorize 0 c4seriesA) ∧
    (1000 : ℕ) - 0 < 3600000 ∧
    EntsoeClient.cacheIsValid
        (EntsoeClient.getPriceData EntsoeClient.initialPriceCache 0 c4seriesA).2 1000 = false ∧
    (EntsoeClient.getPriceData
        (EntsoeClient.getPriceData EntsoeClient.initialPriceCache 0 c4seriesA).2 1000 c4seriesB).1
        = EntsoeClient.categorize 1000 c4seriesB ∧
    EntsoeClient.categorize 1000 c4seriesB ≠ EntsoeClient.categorize 0 c4seriesA := by
  refine ⟨?_, by norm_num, ?_, ?_, ?_⟩
  · simp [EntsoeClient.getPriceData, EntsoeClient.initialPriceCache, EntsoeClient.cacheIsValid]
  · simp [EntsoeClient.getPriceData, EntsoeClient.initialPriceCache, EntsoeClient.cacheIsValid]
  · simp [EntsoeClient.getPriceData, EntsoeClient.initialPriceCache, EntsoeClient.cacheIsValid]
  · simp only [EntsoeClient.categorize, c4seriesA, c4seriesB, hourKey, msPerHour]
    norm_num

/-- For contrast: the node-red global-context cache does honour its
TTL — a get after a put returns the stored series while the age is
below `CACHE_LIFESPAN`, and refetches once it is not. -/
theorem nodered_cache_ttl_contract (putTime getTime : ℕ) (stored fresh : List PriceEntry) :
    (getTime - putTime < NodeRed.CACHE_LIFESPAN →
       (NodeRed.getCachedPriceData
          (NodeRed.getCachedPriceData none putTime stored).2 getTime fresh).1 = stored) ∧
    (NodeRed.CACHE_LIFESPAN ≤ getTime - putTime →
       (NodeRed.getCachedPriceData
          (NodeRed.getCachedPriceData none putTime stored).2 getTime fresh).1 = fresh) := by
  constructor
  · intro h
    simp [NodeRed.getCachedPriceData, h]
  · intro h
    simp [NodeRed.getCachedPriceData, not_lt.mpr h]

/-!
### Claim C6 — savings figures

`savings = currentPrice - lowestAvgPrice` (payload value rounded to 2
decimals) and `savingsPercentage = Math.round(savings / currentPrice
* 10000) / 100` when the current price is positive, else 0.  That is
a TWO-decimal percentage, not the one-decimal rounding the claim
states.
-/

def payloadOf (r : NodeRed.NRResult) : Option NodeRed.NRPayload :=
  match r with
  | NodeRed.NRResult.success p => some p
  | NodeRed.NRResult.errorMsg _ => none

def c6prices : List PriceEntry := [⟨0, 3⟩, ⟨3600000, 1⟩]

/-- C6 fails as stated: with current price 3 and window average 1 the
code reports 66.67 percent (two decimals); rounding
savings / currentPrice * 100 to ONE decimal place gives 66.7, a
different number. -/
theorem c6_savings_percentage_two_decimals :
    (payloadOf (NodeRed.recommendAction (some 6) (some 1) 0 c6prices)).map
        (fun p => p.savingsPercentage) = some (6667 / 100) ∧
    (jsRound ((3 - 1 : ℚ) / 3 * 100 * 10) : ℚ) / 10 = 667 / 10 ∧
    (6667 / 100 : ℚ) ≠ 667 / 10 := by
  refine ⟨?_, ?_, by norm_num⟩
  · simp only [payloadOf, NodeRed.recommendAction, NodeRed.nrLookAhead, NodeRed.nrDuration,
      NodeRed.slotStartMs, c6prices, aggregateToHourly, hourKeys, hourGroup,
      hourKey, msPerHour, mean, scanBest, bestOver, windowAvg, bestStep,
      List.insertionSort, List.orderedInsert]
    simp [List.range_succ, bestStep]
    norm_num [round2, jsRound]
  · norm_num [jsRound]

/-- What the code actually computes on every success payload. -/
def savingsSpec (p : NodeRed.NRPayload) : Prop :=
  ∃ avg : ℚ,
    p.averagePrice = round2 avg ∧
    p.savings = round2 (p.currentPrice - avg) ∧
    p.savingsPercentage =
      (if 0 < p.currentPrice then (jsRound ((p.currentPrice - avg) / p.currentPrice * 10000) : ℚ) / 100
       else 0)

/-- C6 as amended: the payload savings is the rounded difference of
the current price and the winning average, and the percentage is
savings over current price, rounded to TWO decimal places, or 0 for a
non-positive current price. -/
theorem c6_savings_formulas (rawLA rawD : Option ℤ) (now : ℕ) (prices : List PriceEntry)
    (p : NodeRed.NRPayload)
    (h : NodeRed.recommendAction rawLA rawD now prices = NodeRed.NRResult.success p) :
    savingsSpec p := by
  unfold NodeRed.recommendAction at h
  by_cases hval : NodeRed.nrLookAhead rawLA < 1 ∨ 168 < NodeRed.nrLookAhead rawLA
  · rw [if_pos hval] at h
    exact absurd h (by simp)
  · rw [if_neg hval] at h
    rcases hscan : scanBest (fun p => p.price) (aggregateToHourly prices)
        (NodeRed.nrDuration rawD) with _ | ⟨i, avg⟩
    · rw [hscan] at h
      exact absurd h (by simp)
    · rw [hscan] at h
      rcases hfind : (aggregateToHourly prices).find? (fun p => p.timestamp == hourKey now)
          with _ | cur
      · rw [hfind] at h
        exact absurd h (by simp)
      · rw [hfind] at h
        cases h
        exact ⟨avg, rfl, rfl, rfl⟩

def w6prices : List PriceEntry := [⟨0, 4⟩, ⟨3600000, 2⟩]

def w6payload : NodeRed.NRPayload :=
  { averagePrice := 2, startMs := 3600000, endMs := 7200000, currentPrice := 4,
    currentTimestamp := 0, savings := 2, savingsPercentage := 50 }

theorem c6_savings_formulas_witness :
    NodeRed.recommendAction (some 6) (some 1) 0 w6prices = NodeRed.NRResult.success w6payload ∧
    savingsSpec w6payload := by
  have hrun : NodeRed.recommendAction (some 6) (some 1) 0 w6prices
      = NodeRed.NRResult.success w6payload := by
    simp only [NodeRed.recommendAction, NodeRed.nrLookAhead, NodeRed.nrDuration,
      NodeRed.slotStartMs, w6prices, w6payload, aggregateToHourly, hourKeys, hourGroup,
      hourKey, msPerHour, mean, scanBest, bestOver, windowAvg, bestStep,
      List.insertionSort, List.orderedInsert]
    simp [List.range_succ, bestStep]
    norm_num [round2, jsRound]
  exact ⟨hrun, c6_savings_formulas (some 6) (some 1) 0 w6prices w6payload hrun⟩

/-!
### Claim C7 — parameter validation

`lookAheadHours` is validated (1..168) before the fetch, but a value
of 0 is falsy in JS and silently becomes the default 6; and
`durationHours` is never validated at all: `parseInt(duration) || 1`
turns 0 (and any non-numeric value) into 1, so a duration below 1
does not produce an invalid-parameter error.
-/

def c7prices : List PriceEntry := [⟨0, 3⟩, ⟨3600000, 1⟩]

/-- C7 fails as stated: a duration input of 0 (below 1) and a
look-ahead input of 0 (outside 1..168) both yield a SUCCESS result,
not an invalid-parameter failure. -/
theorem c7_zero_duration_not_rejected :
    ((0 : ℤ) < 1 ∧
      (NodeRed.recommendAction (some 6) (some 0) 0 c7prices).isSuccess = true) ∧
    ((0 : ℤ) < 1 ∧
      (NodeRed.recommendAction (some 0) (some 1) 0 c7prices).isSuccess = true) := by
  refine ⟨⟨by norm_num, ?_⟩, ⟨by norm_num, ?_⟩⟩ <;>
  · simp only [NodeRed.recommendAction, NodeRed.nrLookAhead, NodeRed.nrDuration,
      NodeRed.slotStartMs, c7prices, aggregateToHourly, hourKeys, hourGroup,
      hourKey, msPerHour, mean, scanBest, bestOver, windowAvg, bestStep,
      List.insertionSort, List.orderedInsert]
    simp [List.range_succ, bestStep, NodeRed.NRResult.isSuccess]
    norm_num [NodeRed.NRResult.isSuccess, round2, jsRound]

/-- C7 as amended: a nonzero `lookAheadHours` outside 1..168 fails
with the invalid-parameter error before any fetch — the result is
this error for EVERY possible fetched series. -/
theorem c7_lookahead_validated_before_fetch (la : ℤ) (hne : la ≠ 0)
    (hout : la < 1 ∨ 168 < la) (rawD : Option ℤ) (now : ℕ) (prices : List PriceEntry) :
    NodeRed.recommendAction (some la) rawD now prices =
      NodeRed.NRResult.errorMsg
        "Invalid lookAheadHours parameter. Must be a number between 1 and 168 (1 week)." := by
  have hla : NodeRed.nrLookAhead (some la) = la := by
    simp [NodeRed.nrLookAhead, hne]
  unfold NodeRed.recommendAction
  rw [hla, if_pos hout]

theorem c7_lookahead_validated_before_fetch_witness :
    ((200 : ℤ) ≠ 0 ∧ ((200 : ℤ) < 1 ∨ 168 < (200 : ℤ))) ∧
    NodeRed.recommendAction (some 200) none 5 [] =
      NodeRed.NRResult.errorMsg
        "Invalid lookAheadHours parameter. Must be a number between 1 and 168 (1 week)." :=
  ⟨⟨by norm_num, Or.inr (by norm_num)⟩,
   c7_lookahead_validated_before_fetch 200 (by norm_num) (Or.inr (by norm_num)) none 5 []⟩

/-!
### Claim C8 — getCurrentPrice

With no current-period entry, `prices.find(...)` is `undefined` and
the subsequent `current.price` access throws a TypeError — a crash,
not the structured NoCurrentData failure the claim describes.
-/

/-- C8 fails as stated: on a series without a current entry the call
ends in a thrown TypeError, which is not the structured NoCurrentData
error. -/
theorem c8_getCurrentPrice_crashes :
    PPC.getCurrentPrice [{ timestamp := 0, hour := 0, price := 5, period := Period.future }]
        = Except.error PPC.JsError.typeError ∧
    PPC.JsError.typeError ≠ PPC.JsError.noCurrentData := by
  constructor
  · simp [PPC.getCurrentPrice]
  · decide

/-- C8 as amended: `getCurrentPrice` returns the first current-period
entry's data when one exists, and otherwise throws a TypeError (it
never produces a structured NoCurrentData error, and never returns a
value without a current entry). -/
theorem c8_getCurrentPrice_behaviour (prices : List PricePoint) :
    ((∀ p ∈ prices, p.period ≠ Period.current) →
       PPC.getCurrentPrice prices = Except.error PPC.JsError.typeError) ∧
    (∀ c, prices.find? (fun p => p.period == Period.current) = some c →
       PPC.getCurrentPrice prices =
           Except.ok { price := c.price, timestamp := c.timestamp, hour := c.hour } ∧
         c ∈ prices ∧ c.period = Period.current) := by
  constructor
  · intro hno
    unfold PPC.getCurrentPrice
    have hfind : prices.find? (fun p => p.period == Period.current) = none := by
      rw [List.find?_eq_none]
      intro x hx
      simpa using hno x hx
    rw [hfind]
  · intro c hc
    unfold PPC.getCurrentPrice
    rw [hc]
    refine ⟨rfl, List.mem_of_find?_eq_some hc, ?_⟩
    have := List.find?_some hc
    simpa using this

def w8prices : List PricePoint :=
  [{ timestamp := 0, hour := 0, price := 5, period := Period.past },
   { timestamp := 3600000, hour := 1, price := 7, period := Period.current }]

def w8current : PricePoint :=
  { timestamp := 3600000, hour := 1, price := 7, period := Period.current }

theorem c8_getCurrentPrice_behaviour_witness :
    w8prices.find? (fun p => p.period == Period.current) = some w8current ∧
    (PPC.getCurrentPrice w8prices =
        Except.ok { price := w8current.price, timestamp := w8current.timestamp,
                    hour := w8current.hour } ∧
      w8current ∈ w8prices ∧ w8current.period = Period.current) := by
  have hfind : w8prices.find? (fun p => p.period == Period.current) = some w8current := rfl
  exact ⟨hfind, (c8_getCurrentPrice_behaviour w8prices).2 w8current hfind⟩

/-!
### Claim C10 — the synthetic fallback
-/

theorem bands_min_le_max (h : ℕ) : (PPC.bands h).minPrice ≤ (PPC.bands h).maxPrice := by
  unfold PPC.bands
  split_ifs <;> norm_num

theorem bands_rep (h : ℕ) : ∃ nlo nhi : ℤ,
    (PPC.bands h).minPrice = (nlo : ℚ) / 100 ∧ (PPC.bands h).maxPrice = (nhi : ℚ) / 100 := by
  unfold PPC.bands
  split_ifs
  · exact ⟨600, 800, by norm_num, by norm_num⟩
  · exact ⟨800, 900, by norm_num, by norm_num⟩
  · exact ⟨850, 1000, by norm_num, by norm_num⟩
  · exact ⟨1000, 1200, by norm_num, by norm_num⟩
  · exact ⟨700, 900, by norm_num, by norm_num⟩

/-- Clamping into a band whose bounds are exact hundredths and then
rounding to two decimals stays inside the band. -/
theorem round2_clamp_in_band (b : PPC.Band) (nlo nhi : ℤ)
    (hlo : b.minPrice = (nlo : ℚ) / 100) (hhi : b.maxPrice = (nhi : ℚ) / 100)
    (hminmax : b.minPrice ≤ b.maxPrice) (raw : ℚ) :
    b.minPrice ≤ round2 (max b.minPrice (min b.maxPrice raw)) ∧
    round2 (max b.minPrice (min b.maxPrice raw)) ≤ b.maxPrice := by
  have h1 : b.minPrice ≤ max b.minPrice (min b.maxPrice raw) := le_max_left _ _
  have h2 : max b.minPrice (min b.maxPrice raw) ≤ b.maxPrice :=
    max_le hminmax (min_le_left _ _)
  rw [hlo, hhi] at h1 h2 ⊢
  exact ⟨le_round2_of_le nlo _ h1, round2_le_of_le nhi _ h2⟩

/-- The shape of the synthetic series: 49 entries, one per hour from
now - 24 h through now + 24 h, every price inside its hour-of-day
band. -/
def syntheticSpec (now : ℕ) (rand : ℕ → ℚ) : Prop :=
  (PPC.generatePriceData now rand).length = 49 ∧
  (PPC.generatePriceData now rand).map (fun p => p.timestamp) =
    (List.range 49).map (fun k => now - 24 * msPerHour + k * msPerHour) ∧
  ∀ p ∈ PPC.generatePriceData now rand,
    (PPC.bands (hourOfDay p.timestamp)).minPrice ≤ p.price ∧
    p.price ≤ (PPC.bands (hourOfDay p.timestamp)).maxPrice

/-- C10: with no API token, or with a failed fetch, `getPriceData`
returns the freshly generated synthetic series — 49 hourly entries
spanning now - 24 h through now + 24 h with banded prices — so no
fetch error reaches the callers. -/
theorem c10_synthetic_fallback (token : Option String)
    (fetchResult : Except String (List PricePoint)) (now : ℕ) (rand : ℕ → ℚ)
    (hfail : token = none ∨ ∃ e, fetchResult = Except.error e)
    (hnow : 24 * msPerHour ≤ now) :
    PPC.getPriceData token fetchResult now rand = PPC.generatePriceData now rand ∧
    syntheticSpec now rand ∧
    ∀ k, k < 49 → ((now - 24 * msPerHour + k * msPerHour : ℕ) : ℤ)
        = (now : ℤ) + ((k : ℤ) - 24) * (msPerHour : ℤ) := by
  refine ⟨?_, ⟨?_, ?_, ?_⟩, ?_⟩
  · rcases hfail with rfl | ⟨e, rfl⟩
    · rfl
    · cases token with
      | none => rfl
      | some tok => rfl
  · simp [PPC.generatePriceData]
  · unfold PPC.generatePriceData
    rw [List.map_map]
    rfl
  · intro p hp
    obtain ⟨k, hk, rfl⟩ :
        ∃ k, k < 49 ∧ PPC.genEntry now rand k = p := by
      simpa [PPC.generatePriceData, exists_prop] using hp
    obtain ⟨nlo, nhi, hlo, hhi⟩ := bands_rep (hourOfDay (now - 24 * msPerHour + k * msPerHour))
    exact round2_clamp_in_band _ nlo nhi hlo hhi (bands_min_le_max _) _
  · intro k hk
    simp only [msPerHour] at hnow ⊢
    omega

theorem c10_synthetic_fallback_witness :
    ((none : Option String) = none ∨
      ∃ e, (Except.ok [] : Except String (List PricePoint)) = Except.error e) ∧
    24 * msPerHour ≤ 24 * msPerHour ∧
    (PPC.getPriceData none (Except.ok []) (24 * msPerHour) (fun _ => 1 / 2)
        = PPC.generatePriceData (24 * msPerHour) (fun _ => 1 / 2) ∧
      syntheticSpec (24 * msPerHour) (fun _ => 1 / 2) ∧
      ∀ k, k < 49 → ((24 * msPerHour - 24 * msPerHour + k * msPerHour : ℕ) : ℤ)
          = ((24 * msPerHour : ℕ) : ℤ) + ((k : ℤ) - 24) * (msPerHour : ℤ)) :=
  ⟨Or.inl rfl, le_refl _,
   c10_synthetic_fallback none (Except.ok []) (24 * msPerHour) (fun _ => 1 / 2)
     (Or.inl rfl) (le_refl _)⟩

end PowerPriceCheck
